import Mathlib

/-!
Verification of the NGU_Firefly transcoding orchestrator.

This file gives a shallow embedding, in Lean 4, of the parts of the
NGU_Firefly code base that the specification's claims are about:

* the per-job CRF search loop (`app/encoder.py`),
* the next-CRF prediction (`encoder._predict_next_crf`),
* the job validator (`app/job_validator.py`),
* job composition (`app/job_composer.py`),
* the v1 -> v3 journal migration (`app/migrations/versions/v1_to_v3_migrator.py`),
* the lock-path convention (`app/locking/file_lock.py`),
* terminal cleanup and the driver loop (`app/main.py`).

Conventions of the embedding:

* Python `int` is modelled as `Int`, Python `float` as `Rat` (the program
  only ever compares, adds, divides and rounds these values; all concrete
  inputs used below are exactly representable).
* Python `//` on integers is floor division (`Int.fdiv`); Python `int()`
  on a float truncates toward zero; Python `round()` rounds half to even.
* Filesystem state is modelled as the list of file names present in a
  directory; subprocess results (measured VMAF, output hash) enter through
  explicit oracle parameters.
* Exceptions are modelled with `Except`; a function that installs no
  handler for an exception simply propagates the `Except.error` value.
-/

/-- Python integer floor division `a // b`. -/
def pyFloorDiv (a b : Int) : Int := Int.fdiv a b

/-- Python `int(x)` on a float: truncation toward zero. -/
def pyTrunc (q : Rat) : Int := if 0 ≤ q then ⌊q⌋ else -⌊-q⌋

/-- Python `round(x)` on a float: round to nearest, ties to even. -/
def pyRound (q : Rat) : Int :=
  let f := ⌊q⌋
  let r := q - (f : Rat)
  if r < 1/2 then f
  else if 1/2 < r then f + 1
  else if f % 2 = 0 then f else f + 1

/-- Python `abs` on rationals. -/
def pyAbsQ (q : Rat) : Rat := |q|

/-- Python `str.lower()` (character-wise, as on the ASCII file names the
program handles). -/
def py_str_lower (s : String) : String := String.mk (s.data.map Char.toLower)

/-- Python `str.endswith(suffix)`. -/
def str_ends_with (s suffix : String) : Bool := suffix.data.isSuffixOf s.data

/-! ## Data model (`app/model/json/*`, journal shape of spec section 6)

`app/model/json/encoding_stage.py` itself is not among the provided source
files (only its importers `encoder.py` and `main.py` are), so the stage
enumeration is modelled from the spec.
-/

/-- Modelled from the spec: the stage-name enumeration of
`app.model.json.encoding_stage` (the module is missing from the provided
sources; names and codes are pinned by spec section 3 and by every use in
`encoder.py` and `main.py`). -/
inductive EncodingStageNamesEnum where
  | PREPARED               -- 1
  | METADATA_EXTRACTED     -- 2
  | SEARCHING_CRF          -- 3
  | CRF_FOUND              -- 4
  | COMPLETED              -- 5
  | FAILED                 -- -1
  | STOPPED_VMAF_DELTA     -- -2
  | UNREACHABLE_VMAF       -- -3
  | SKIPPED_IS_HDR_VIDEO   -- -4
  deriving DecidableEq, Repr

/-- Modelled from the spec: the `EncodingStage` record of
`app.model.json.encoding_stage` (journal shape, spec section 6; the
cumulative `job_total_time_seconds` field is wall-clock time and is not
modelled). In every state the search loop touches, the window bounds are
present, so they are embedded as plain integers. -/
structure EncodingStage where
  stage_number_from_1 : Int
  stage_name : EncodingStageNamesEnum
  crf_range_min : Int
  crf_range_max : Int
  last_vmaf : Option Rat
  last_crf : Option Int
  deriving DecidableEq, Repr

/-- The strict `FileAttributes` model of `app/model/json/file_attributes.py`:
`file_name: str`, `file_size_megabytes: Optional[float]` - and no other
field. -/
structure FileAttributes where
  file_name : String
  file_size_megabytes : Option Rat
  deriving DecidableEq, Repr

/-- The `EncoderSettings` model of `app/model/json/encoder_settings.py`. -/
structure EncoderSettings where
  encoder : String
  preset : String
  crf : Int
  cpu_threads_to_use : Int
  deriving DecidableEq, Repr

/-- The `ExecutionData` model (`app/model/json/execution_data`): only the
measured VMAF is read by the verified code paths; the command string,
timestamps and wall-clock durations are not modelled. -/
structure ExecutionData where
  source_to_encoded_vmaf_percent : Rat
  deriving DecidableEq, Repr

/-- One recorded iteration (`app/model/json/iteration.py`); the probed
`video_attributes`, `environment` and `ffmpeg_metadata` sub-objects are
never read by the verified code paths and are not modelled. The fields
below are always populated by `_encode_iteration`, so they are embedded
without `Option`. -/
structure Iteration where
  file_attributes : FileAttributes
  sha256_hash : String
  encoder_settings : EncoderSettings
  execution_data : ExecutionData
  deriving DecidableEq, Repr

/-- The `SourceVideo` model (`app/model/json/source_video.py`), restricted
to the fields the verified code paths read. -/
structure SourceVideo where
  file_attributes : FileAttributes
  sha256_hash : String
  deriving DecidableEq, Repr

/-- The persisted journal (`app/model/json/job_data.py`). -/
structure JobData where
  schema_version : Int
  source_video : SourceVideo
  encoding_stage : EncodingStage
  iterations : List Iteration
  deriving DecidableEq, Repr

/-- The configuration fields read by the verified code paths
(`app/config/app_config.py`). -/
structure AppConfig where
  schema_version : Int
  input_dir : String
  output_dir : String
  crf_min : Int
  crf_max : Int
  initial_crf : Int
  vmaf_min : Rat
  vmaf_max : Rat
  efficiency_threshold : Rat
  encoder_preset : String
  deriving DecidableEq, Repr

/-! ## Next-CRF prediction (`encoder._predict_next_crf`) -/

/-- Least-squares normal-equation denominator of the degree-1 fit
`np.polyfit(x, y, 1)` over the iterations' (crf, vmaf) points:
`n * sum x^2 - (sum x)^2`. -/
def regressionDenom (iterations : List Iteration) : Rat :=
  let xs := iterations.map (fun i => (i.encoder_settings.crf : Rat))
  let n : Rat := iterations.length
  n * (xs.map (fun x => x * x)).sum - xs.sum * xs.sum

/-- Slope `k` of the degree-1 least-squares fit of VMAF over CRF
(`k, b = np.polyfit(x, y, 1)`). -/
def regressionSlope (iterations : List Iteration) : Rat :=
  let xs := iterations.map (fun i => (i.encoder_settings.crf : Rat))
  let ys := iterations.map (fun i => i.execution_data.source_to_encoded_vmaf_percent)
  let n : Rat := iterations.length
  let sxy := (iterations.map (fun i =>
    (i.encoder_settings.crf : Rat) * i.execution_data.source_to_encoded_vmaf_percent)).sum
  (n * sxy - xs.sum * ys.sum) / regressionDenom iterations

/-- Intercept `b` of the same fit, `b = (sum y - k * sum x) / n`. -/
def regressionIntercept (iterations : List Iteration) : Rat :=
  let xs := iterations.map (fun i => (i.encoder_settings.crf : Rat))
  let ys := iterations.map (fun i => i.execution_data.source_to_encoded_vmaf_percent)
  let n : Rat := iterations.length
  (ys.sum - regressionSlope iterations * xs.sum) / n

/-- Shallow embedding of `encoder._predict_next_crf`.  The float-level
failure paths of the original (`np.polyfit` on a rank-deficient system,
`round` of an infinite quotient when the fitted slope is zero) are the
`except` branch of the source and are modelled as the degenerate test
`den = 0 or k = 0`; both fall back to the integer midpoint, as does a job
with fewer than two iterations. -/
def predict_next_crf (cfg : AppConfig) (job : JobData) : Int :=
  let stage := job.encoding_stage
  let iterations := job.iterations
  let target_vmaf := (cfg.vmaf_min + cfg.vmaf_max) / 2
  match stage.last_crf with
  | none => cfg.initial_crf
  | some _ =>
    if 2 ≤ iterations.length then
      let den := regressionDenom iterations
      let k := regressionSlope iterations
      if den ≠ 0 ∧ k ≠ 0 then
        let b := regressionIntercept iterations
        let predicted := (target_vmaf - b) / k
        let res := pyRound predicted
        max stage.crf_range_min (min stage.crf_range_max res)
      else
        pyFloorDiv (stage.crf_range_min + stage.crf_range_max) 2
    else
      pyFloorDiv (stage.crf_range_min + stage.crf_range_max) 2

/-! ## One pass of the CRF search loop (`encoder.encode_job`) -/

/-- Shallow embedding of `encoder._is_crf_prediction_valid`. -/
def is_crf_prediction_valid (job : JobData) (predicted_crf : Int) : Bool :=
  if predicted_crf < job.encoding_stage.crf_range_min
      ∨ predicted_crf > job.encoding_stage.crf_range_max then
    false
  else
    true

/-- Shallow embedding of `encoder._is_encoding_efficient`. -/
def is_encoding_efficient (cfg : AppConfig) (job : JobData)
    (current_vmaf : Rat) (crf_to_test : Int) : Bool :=
  match job.encoding_stage.last_vmaf, job.encoding_stage.last_crf with
  | some last_vmaf, some last_crf =>
    let vmaf_delta := pyAbsQ (current_vmaf - last_vmaf)
    let crf_delta := |crf_to_test - last_crf|
    if crf_delta > 0 then
      let vmaf_per_crf := vmaf_delta / (crf_delta : Rat)
      if vmaf_per_crf < cfg.efficiency_threshold then false else true
    else
      true
  | _, _ => true

/-- Observable result of one `_encode_iteration` subprocess phase: the
measured VMAF plus the encoded file's name and SHA-256 (produced by the
external tools; the search logic itself never inspects the latter two). -/
structure EncodeResult where
  vmaf : Rat
  out_name : String
  out_hash : String
  deriving DecidableEq, Repr

/-- What a call to `_encode_iteration` does from the search loop's point of
view: either it returns an iteration, or it raises `EncodingError`
(e.g. the encoder exited non-zero and the output file is absent; the
`LowResources` retry loop is internal to the call and invisible here). -/
inductive EncodeOutcome where
  | ok (r : EncodeResult)
  | encodingError
  deriving DecidableEq, Repr

/-- The `Iteration` record appended by `_encode_iteration` for CRF `crf`
with subprocess results `r` (thread counts are host-dependent and fixed
to 0 in the model; the search logic never reads them). -/
def mkIteration (cfg : AppConfig) (crf : Int) (r : EncodeResult) : Iteration :=
  { file_attributes := { file_name := r.out_name, file_size_megabytes := none }
    sha256_hash := r.out_hash
    encoder_settings :=
      { encoder := "libx265", preset := cfg.encoder_preset
        crf := crf, cpu_threads_to_use := 0 }
    execution_data := { source_to_encoded_vmaf_percent := r.vmaf } }

/-- Python `min(list, key=f)`: the first element minimizing `f` (`none` on
an empty list, where Python raises). -/
def pyMinBy (f : Iteration → Rat) : List Iteration → Option Iteration
  | [] => none
  | x :: xs => some (xs.foldl (fun best i => if f i < f best then i else best) x)

/-- Result of one pass of the `while True` loop in `encoder.encode_job`:
the loop persists a journal and stops, persists one and repeats, or
propagates `EncodingError` (persisting nothing). -/
inductive PassResult where
  | stop (persisted : JobData)
  | next (persisted : JobData)
  | raisedEncodingError
  deriving DecidableEq, Repr

/-- Shallow embedding of one pass of the search loop in
`encoder.encode_job` (`encoder.py`, the `while True` body).  `out` stands
for the `_encode_iteration` call.  Each branch mirrors the source: the
broken-bounds and invalid-prediction exits write an `UNREACHABLE_VMAF`
stage; the target-band exit writes `CRF_FOUND` with a collapsed window;
the inefficiency exit writes `STOPPED_VMAF_DELTA` keeping the window and
reporting the iteration whose VMAF is nearest `vmaf_min`; otherwise the
window is narrowed around the tested CRF and the loop repeats. -/
def encode_job_pass (cfg : AppConfig) (job : JobData) (out : EncodeOutcome) : PassResult :=
  let stage := job.encoding_stage
  if stage.crf_range_min > stage.crf_range_max then
    .stop { job with encoding_stage :=
      { stage_number_from_1 := -3
        stage_name := .UNREACHABLE_VMAF
        crf_range_min := stage.crf_range_min
        crf_range_max := stage.crf_range_max
        last_vmaf := stage.last_vmaf
        last_crf := stage.last_crf } }
  else
    let crf_to_test := predict_next_crf cfg job
    if is_crf_prediction_valid job crf_to_test = false then
      .stop { job with encoding_stage :=
        { stage_number_from_1 := -3
          stage_name := .UNREACHABLE_VMAF
          crf_range_min := stage.crf_range_min
          crf_range_max := stage.crf_range_max
          last_vmaf := stage.last_vmaf
          last_crf := stage.last_crf } }
    else
      match out with
      | .encodingError => .raisedEncodingError
      | .ok r =>
        let iteration := mkIteration cfg crf_to_test r
        let job1 := { job with iterations := job.iterations ++ [iteration] }
        let current_vmaf := iteration.execution_data.source_to_encoded_vmaf_percent
        if cfg.vmaf_min ≤ current_vmaf ∧ current_vmaf ≤ cfg.vmaf_max then
          .stop { job1 with encoding_stage :=
            { stage_number_from_1 := 4
              stage_name := .CRF_FOUND
              crf_range_min := crf_to_test
              crf_range_max := crf_to_test
              last_vmaf := some current_vmaf
              last_crf := some crf_to_test } }
        else if is_encoding_efficient cfg job current_vmaf crf_to_test = false then
          let best_iteration := (pyMinBy
            (fun i => pyAbsQ (i.execution_data.source_to_encoded_vmaf_percent - cfg.vmaf_min))
            job1.iterations).getD iteration
          .stop { job1 with encoding_stage :=
            { stage_number_from_1 := -2
              stage_name := .STOPPED_VMAF_DELTA
              crf_range_min := stage.crf_range_min
              crf_range_max := stage.crf_range_max
              last_vmaf := some best_iteration.execution_data.source_to_encoded_vmaf_percent
              last_crf := some best_iteration.encoder_settings.crf } }
        else
          let new_min :=
            if current_vmaf > cfg.vmaf_max then crf_to_test + 1 else stage.crf_range_min
          let new_max :=
            if current_vmaf > cfg.vmaf_max then stage.crf_range_max else crf_to_test - 1
          .next { job1 with encoding_stage :=
            { stage_number_from_1 := 3
              stage_name := .SEARCHING_CRF
              crf_range_min := new_min
              crf_range_max := new_max
              last_vmaf := some current_vmaf
              last_crf := some crf_to_test } }

/-- The search loop of `encoder.encode_job`: repeat `encode_job_pass`,
collecting every persisted journal in order, until a pass stops, an
`EncodingError` propagates (`encode_job` catches only the lock `Timeout`),
or the fuel runs out.  On real inputs the loop terminates because every
repeating pass strictly narrows the window; fuel exhaustion returns the
state reached so far. -/
def encode_job_loop (cfg : AppConfig) (enc : Nat → EncodeOutcome) :
    Nat → Nat → JobData → Except Unit JobData × List JobData
  | 0, _, job => (.ok job, [])
  | fuel + 1, k, job =>
    match encode_job_pass cfg job (enc k) with
    | .stop persisted => (.ok persisted, [persisted])
    | .raisedEncodingError => (.error (), [])
    | .next persisted =>
      let rest := encode_job_loop cfg enc fuel (k + 1) persisted
      (rest.1, persisted :: rest.2)

/-- Claim C1, reporting clause of the STOPPED_VMAF_DELTA exit: the
persisted `last_crf`/`last_vmaf` come from a recorded iteration whose VMAF
is nearest `vmaf_min`. -/
def stoppedBestReported (cfg : AppConfig) (p : JobData) : Prop :=
  ∃ b ∈ p.iterations,
    (∀ j ∈ p.iterations,
      pyAbsQ (b.execution_data.source_to_encoded_vmaf_percent - cfg.vmaf_min)
        ≤ pyAbsQ (j.execution_data.source_to_encoded_vmaf_percent - cfg.vmaf_min))
    ∧ p.encoding_stage.last_vmaf = some b.execution_data.source_to_encoded_vmaf_percent
    ∧ p.encoding_stage.last_crf = some b.encoder_settings.crf

/-- Claim C1 phrased over one pass of the loop: the five cases of the
claimed decision order, each conditioned on the earlier guards failing,
describing the persisted journal and whether the loop repeats. -/
def passFollowsClaim (cfg : AppConfig) (job : JobData) (r : EncodeResult) : Prop :=
  (job.encoding_stage.crf_range_min > job.encoding_stage.crf_range_max →
    ∃ p, encode_job_pass cfg job (.ok r) = .stop p
      ∧ p.encoding_stage.stage_name = .UNREACHABLE_VMAF)
  ∧ (¬ job.encoding_stage.crf_range_min > job.encoding_stage.crf_range_max →
      (predict_next_crf cfg job < job.encoding_stage.crf_range_min
        ∨ predict_next_crf cfg job > job.encoding_stage.crf_range_max) →
      ∃ p, encode_job_pass cfg job (.ok r) = .stop p
        ∧ p.encoding_stage.stage_name = .UNREACHABLE_VMAF)
  ∧ (¬ job.encoding_stage.crf_range_min > job.encoding_stage.crf_range_max →
      ¬ (predict_next_crf cfg job < job.encoding_stage.crf_range_min
        ∨ predict_next_crf cfg job > job.encoding_stage.crf_range_max) →
      (cfg.vmaf_min ≤ r.vmaf ∧ r.vmaf ≤ cfg.vmaf_max) →
      ∃ p i, encode_job_pass cfg job (.ok r) = .stop p
        ∧ p.iterations = job.iterations ++ [i]
        ∧ i.encoder_settings.crf = predict_next_crf cfg job
        ∧ i.execution_data.source_to_encoded_vmaf_percent = r.vmaf
        ∧ p.encoding_stage = ⟨4, .CRF_FOUND, predict_next_crf cfg job,
            predict_next_crf cfg job, some r.vmaf, some (predict_next_crf cfg job)⟩)
  ∧ (¬ job.encoding_stage.crf_range_min > job.encoding_stage.crf_range_max →
      ¬ (predict_next_crf cfg job < job.encoding_stage.crf_range_min
        ∨ predict_next_crf cfg job > job.encoding_stage.crf_range_max) →
      ¬ (cfg.vmaf_min ≤ r.vmaf ∧ r.vmaf ≤ cfg.vmaf_max) →
      (∃ lv lc, job.encoding_stage.last_vmaf = some lv
        ∧ job.encoding_stage.last_crf = some lc
        ∧ |predict_next_crf cfg job - lc| > 0
        ∧ pyAbsQ (r.vmaf - lv) / ((|predict_next_crf cfg job - lc| : Int) : Rat)
            < cfg.efficiency_threshold) →
      ∃ p i, encode_job_pass cfg job (.ok r) = .stop p
        ∧ p.iterations = job.iterations ++ [i]
        ∧ i.encoder_settings.crf = predict_next_crf cfg job
        ∧ i.execution_data.source_to_encoded_vmaf_percent = r.vmaf
        ∧ p.encoding_stage.stage_number_from_1 = -2
        ∧ p.encoding_stage.stage_name = .STOPPED_VMAF_DELTA
        ∧ p.encoding_stage.crf_range_min = job.encoding_stage.crf_range_min
        ∧ p.encoding_stage.crf_range_max = job.encoding_stage.crf_range_max
        ∧ stoppedBestReported cfg p)
  ∧ (¬ job.encoding_stage.crf_range_min > job.encoding_stage.crf_range_max →
      ¬ (predict_next_crf cfg job < job.encoding_stage.crf_range_min
        ∨ predict_next_crf cfg job > job.encoding_stage.crf_range_max) →
      ¬ (cfg.vmaf_min ≤ r.vmaf ∧ r.vmaf ≤ cfg.vmaf_max) →
      ¬ (∃ lv lc, job.encoding_stage.last_vmaf = some lv
        ∧ job.encoding_stage.last_crf = some lc
        ∧ |predict_next_crf cfg job - lc| > 0
        ∧ pyAbsQ (r.vmaf - lv) / ((|predict_next_crf cfg job - lc| : Int) : Rat)
            < cfg.efficiency_threshold) →
      ∃ p i, encode_job_pass cfg job (.ok r) = .next p
        ∧ p.iterations = job.iterations ++ [i]
        ∧ i.encoder_settings.crf = predict_next_crf cfg job
        ∧ i.execution_data.source_to_encoded_vmaf_percent = r.vmaf
        ∧ p.encoding_stage = ⟨3, .SEARCHING_CRF,
            (if r.vmaf > cfg.vmaf_max then predict_next_crf cfg job + 1
              else job.encoding_stage.crf_range_min),
            (if r.vmaf > cfg.vmaf_max then job.encoding_stage.crf_range_max
              else predict_next_crf cfg job - 1),
            some r.vmaf, some (predict_next_crf cfg job)⟩)



/-! ## Claim-side material for C2 -/

/-- Window well-formedness against the configured CRF range.  It holds for
every journal the composer creates (`_initialize_encoder_job` sets the
window to `[crf_min, crf_max]` and `ConfigValidator` enforces
`crf_min < crf_max`). -/
def windowInv (cfg : AppConfig) (st : EncodingStage) : Prop :=
  cfg.crf_min ≤ st.crf_range_min ∧ st.crf_range_max ≤ cfg.crf_max
    ∧ st.crf_range_min ≤ st.crf_range_max + 1

/-- A validator-accepted configuration with CRF range [20, 22], initial
CRF 21, VMAF band [96, 97] and the default efficiency threshold 0.28. -/
def cfgC2 : AppConfig :=
  { schema_version := 3, input_dir := "in", output_dir := "out"
    crf_min := 20, crf_max := 22, initial_crf := 21
    vmaf_min := 96, vmaf_max := 97, efficiency_threshold := 28/100
    encoder_preset := "veryslow" }

/-- A freshly composed job for `sample.mp4` after metadata extraction,
about to enter the search loop with the full window [20, 22]. -/
def jobC2 : JobData :=
  { schema_version := 3
    source_video :=
      { file_attributes := { file_name := "sample.mp4", file_size_megabytes := some 100 }
        sha256_hash := "hash-src" }
    encoding_stage :=
      { stage_number_from_1 := 2, stage_name := .METADATA_EXTRACTED
        crf_range_min := 20, crf_range_max := 22, last_vmaf := none, last_crf := none }
    iterations := [] }

/-- Encode oracle for the C2 trace: the encodes at CRF 21 and CRF 22
measure VMAF 99 and 98, both above the band, with a VMAF-per-CRF ratio of
1 (efficient), so the loop narrows twice. -/
def encC2 : Nat → EncodeOutcome
  | 0 => .ok { vmaf := 99, out_name := "sample_libx265_veryslow_crf_21.mp4", out_hash := "hash-21" }
  | 1 => .ok { vmaf := 98, out_name := "sample_libx265_veryslow_crf_22.mp4", out_hash := "hash-22" }
  | _ => .ok { vmaf := 0, out_name := "unused", out_hash := "unused" }


/-! ## Job validator (`app/job_validator.py`) -/

/-- Filesystem facts `job_validator.validate` consults: existence of the
source file and of the journal, and the set of files present in
`output_dir`. -/
structure ValidateEnv where
  source_exists : Bool
  metadata_exists : Bool
  output_files : List String
  deriving DecidableEq, Repr

/-- The best-iteration scan of `job_validator.validate`: the Python for
loop overwrites `best_iteration` on every iteration whose VMAF equals the
stage's `last_vmaf` while the window is collapsed, so it keeps the last
match.  Note the loop never compares the iteration's own CRF with the
window. -/
def bestIterationScan (job : JobData) : Option Iteration :=
  job.iterations.foldl
    (fun best iteration =>
      if job.encoding_stage.crf_range_min = job.encoding_stage.crf_range_max
          ∧ some iteration.execution_data.source_to_encoded_vmaf_percent
              = job.encoding_stage.last_vmaf
        then some iteration else best)
    none

/-- Shallow embedding of `job_validator.validate`. -/
def validate (env : ValidateEnv) (job : JobData) : Bool :=
  if env.source_exists = false then false
  else if env.metadata_exists = false then false
  else if job.encoding_stage.stage_name = .PREPARED
      ∨ job.encoding_stage.stage_name = .METADATA_EXTRACTED
      ∨ job.encoding_stage.stage_name = .SEARCHING_CRF then true
  else if job.encoding_stage.stage_name = .STOPPED_VMAF_DELTA
      ∨ job.encoding_stage.stage_name = .UNREACHABLE_VMAF then true
  else
    match bestIterationScan job with
    | none => false
    | some best => env.output_files.contains best.file_attributes.file_name

/-- Claim C7 as stated: acceptance demands an iteration whose
encoder-settings CRF equals both window bounds, whose VMAF equals
`last_vmaf`, and whose output file still exists. -/
def validateClaimSpec (env : ValidateEnv) (job : JobData) : Prop :=
  ∃ i ∈ job.iterations,
    i.encoder_settings.crf = job.encoding_stage.crf_range_min
    ∧ i.encoder_settings.crf = job.encoding_stage.crf_range_max
    ∧ some i.execution_data.source_to_encoded_vmaf_percent = job.encoding_stage.last_vmaf
    ∧ env.output_files.contains i.file_attributes.file_name = true

/-- Environment for the C7 counterexample: both files exist and the
iteration output at CRF 30 is present in `output_dir`. -/
def envC7 : ValidateEnv :=
  { source_exists := true, metadata_exists := true
    output_files := ["sample_libx265_veryslow_crf_30.mp4"] }

/-- Journal for the C7 counterexample: stage CRF_FOUND with collapsed
window [26, 26] and `last_vmaf` 95, but its only iteration was encoded at
CRF 30 (VMAF 95). -/
def jobC7 : JobData :=
  { schema_version := 3
    source_video :=
      { file_attributes := { file_name := "sample.mp4", file_size_megabytes := some 100 }
        sha256_hash := "hash-src" }
    encoding_stage :=
      { stage_number_from_1 := 4, stage_name := .CRF_FOUND
        crf_range_min := 26, crf_range_max := 26, last_vmaf := some 95, last_crf := some 26 }
    iterations :=
      [{ file_attributes :=
          { file_name := "sample_libx265_veryslow_crf_30.mp4", file_size_megabytes := none }
         sha256_hash := "hash-30"
         encoder_settings :=
          { encoder := "libx265", preset := "veryslow", crf := 30, cpu_threads_to_use := 0 }
         execution_data := { source_to_encoded_vmaf_percent := 95 } }] }


/-! ## v1 -> v3 migration (`app/migrations/versions/v1_to_v3_migrator.py`) -/

/-- The semi-structured `file_attributes` object as the migration layer
sees it: the parsed-JSON map restricted to the keys the migrator and the
strict model touch (`none` = key absent). -/
structure FileAttributesDict where
  file_name : Option String
  file_size_megabytes : Option Rat
  file_size_bytes : Option Int
  deriving DecidableEq, Repr

/-- `V1ToV3Migrator._migrate_file_attributes`: read `file_size_megabytes`
with default 0 (`get_optional_or_default`), convert with Python `int()`
truncation by `int(size_mb * 1024 * 1024)`, and store `file_size_bytes`. -/
def migrate_file_attributes (fa : FileAttributesDict) : FileAttributesDict :=
  let size_mb : Rat := fa.file_size_megabytes.getD 0
  let size_bytes : Int := pyTrunc (size_mb * (1024 * 1024))
  { fa with file_size_bytes := some size_bytes }

/-- The raw v1 journal restricted to what the migrator touches. -/
structure JobDict where
  schema_version : Int
  source_file_attributes : FileAttributesDict
  iteration_file_attributes : List FileAttributesDict
  deriving DecidableEq, Repr

/-- `V1ToV3Migrator.migrate`: rewrite the source `file_attributes` and
every iteration's, then stamp the target version 3. -/
def v1_to_v3_migrate (d : JobDict) : JobDict :=
  { schema_version := 3
    source_file_attributes := migrate_file_attributes d.source_file_attributes
    iteration_file_attributes := d.iteration_file_attributes.map migrate_file_attributes }

/-- Pydantic parsing of a `file_attributes` map into the strict
`FileAttributes` model of `app/model/json/file_attributes.py`: the model
declares only `file_name` and `file_size_megabytes`, and unknown keys such
as `file_size_bytes` are ignored (the default `extra` behaviour). -/
def model_validate_file_attributes (fa : FileAttributesDict) : Option FileAttributes :=
  fa.file_name.map (fun n => { file_name := n, file_size_megabytes := fa.file_size_megabytes })

/-- Pydantic serialization of the strict model back to a map: the dumped
object carries no `file_size_bytes` key. -/
def model_dump_file_attributes (m : FileAttributes) : FileAttributesDict :=
  { file_name := some m.file_name
    file_size_megabytes := m.file_size_megabytes
    file_size_bytes := none }

/-- Concrete v1 journal for C5: the source file is 0.3 MB, a value whose
byte count 314572.8 separates truncation from rounding. -/
def jobDictC5 : JobDict :=
  { schema_version := 1
    source_file_attributes :=
      { file_name := some "sample.mp4", file_size_megabytes := some (3/10)
        file_size_bytes := none }
    iteration_file_attributes := [] }


/-! ## Lock-path convention (`app/locking/file_lock.py`, `lock_manager.py`) -/

/-- `app.locking.lock_mode.LockMode`. -/
inductive LockMode where
  | EXCLUSIVE
  | SHARED
  deriving DecidableEq, Repr

/-- `ManagedFileLock._generate_lock_path`: exclusive locks lock
`target + suffix`; shared locks lock a per-process, per-thread unique path
`target + ".read.<pid>.<tid>" + suffix`. -/
def generate_lock_path (target_path : String) (lock_mode : LockMode)
    (lock_suffix : String) (pid tid : Nat) : String :=
  match lock_mode with
  | .EXCLUSIVE => target_path ++ lock_suffix
  | .SHARED =>
    target_path ++ ".read." ++ toString pid ++ "." ++ toString tid ++ lock_suffix

/-- `LockConfig.METADATA_LOCK_SUFFIX`. -/
def METADATA_LOCK_SUFFIX : String := ".lock"

/-- `LockManager.acquire_metadata_lock`: the lock-file path guarding the
journal `metadata_file_path` for a holder in process `pid`, thread `tid`. -/
def metadata_lock_path (metadata_file_path : String) (lock_mode : LockMode)
    (pid tid : Nat) : String :=
  generate_lock_path metadata_file_path lock_mode METADATA_LOCK_SUFFIX pid tid

/-- Semantics of the underlying `filelock.FileLock`: the OS lock is
exclusive per lock-file path, so an acquisition succeeds exactly when no
current holder locked the same path.  `held` lists the lock-file paths of
all current holders. -/
def canAcquire (held : List String) (lock_file_path : String) : Bool :=
  ! held.contains lock_file_path


/-! ## Terminal cleanup (`app/main.py`) -/

/-- `main._remove_all_non_final_iteration_files`, written as structural
recursion over the iterations in order (the source iterates a Python for
loop): each iteration output whose VMAF lies outside
`[vmaf_min, vmaf_max]` and which is present in `output_dir` is deleted and
counted.  Returns the remaining directory contents and the deletion
count. -/
def remove_non_final_files (cfg : AppConfig) :
    List Iteration → List String → List String × Nat
  | [], fs => (fs, 0)
  | iteration :: rest, fs =>
    let vmaf_percent := iteration.execution_data.source_to_encoded_vmaf_percent
    if vmaf_percent < cfg.vmaf_min ∨ vmaf_percent > cfg.vmaf_max then
      if iteration.file_attributes.file_name ∈ fs then
        let r := remove_non_final_files cfg rest
          (fs.erase iteration.file_attributes.file_name)
        (r.1, r.2 + 1)
      else
        remove_non_final_files cfg rest fs
    else
      remove_non_final_files cfg rest fs

/-- `main._perform_job_cleanup`: delete out-of-band iteration outputs,
then copy the original source into `output_dir`
(`_use_initial_file_as_output`) exactly when the deletion count reaches
the number of iterations.  (The final journal write re-serializes
unchanged data and is not modelled.) -/
def perform_job_cleanup (cfg : AppConfig) (job : JobData)
    (source_file_name : String) (fs : List String) : List String :=
  let r := remove_non_final_files cfg job.iterations fs
  if r.2 ≥ job.iterations.length then r.1 ++ [source_file_name] else r.1

/-- Job for C9: terminal stage STOPPED_VMAF_DELTA with a single recorded
iteration whose VMAF 50 lies far outside the target band [96, 97]. -/
def jobC9 : JobData :=
  { schema_version := 3
    source_video :=
      { file_attributes := { file_name := "sample.mp4", file_size_megabytes := some 100 }
        sha256_hash := "hash-src" }
    encoding_stage :=
      { stage_number_from_1 := -2, stage_name := .STOPPED_VMAF_DELTA
        crf_range_min := 20, crf_range_max := 22, last_vmaf := some 50, last_crf := some 21 }
    iterations :=
      [{ file_attributes :=
          { file_name := "sample_libx265_veryslow_crf_21.mp4", file_size_megabytes := none }
         sha256_hash := "hash-21"
         encoder_settings :=
          { encoder := "libx265", preset := "veryslow", crf := 21, cpu_threads_to_use := 0 }
         execution_data := { source_to_encoded_vmaf_percent := 50 } }] }


/-! ## Job composition (`app/job_composer.py`) -/

/-- `job_composer.JOB_FILE_SUFFIX`. -/
def JOB_FILE_SUFFIX : String := "_encoderdata.json"

/-- A directory entry of `input_dir` as `_create_jobs_from_source_files`
sees it: `stem` and `suffix` partition the file name
(`name = stem ++ suffix`); `sha256` is what `calculate_sha256_hash`
returns for the file and `size_megabytes` what
`get_file_size_megabytes` returns. -/
structure SourceFile where
  stem : String
  suffix : String
  is_file : Bool
  sha256 : String
  size_megabytes : Rat
  deriving DecidableEq, Repr

/-- A newly created job: source name, the journal path chosen by
`_create_jobs_from_source_files`, and the initialized journal. -/
structure NewJob where
  source_name : String
  journal_path : String
  job_data : JobData
  deriving DecidableEq, Repr

/-- `job_composer._initialize_encoder_job`: a PREPARED journal whose CRF
window is the configured `[crf_min, crf_max]` (the `EncodingStage` is
constructed without `last_vmaf`/`last_crf`, which default to `None`). -/
def initialize_encoder_job (cfg : AppConfig) (item : SourceFile) : JobData :=
  { schema_version := cfg.schema_version
    source_video :=
      { file_attributes :=
          { file_name := item.stem ++ item.suffix
            file_size_megabytes := some item.size_megabytes }
        sha256_hash := item.sha256 }
    encoding_stage :=
      { stage_number_from_1 := 1, stage_name := .PREPARED
        crf_range_min := cfg.crf_min, crf_range_max := cfg.crf_max
        last_vmaf := none, last_crf := none }
    iterations := [] }

/-- The keys of the `jobs_map` built by `_create_jobs_from_source_files`:
every loaded journal's source hash together with all its iteration
hashes. -/
def known_hashes (existing_jobs : List JobData) : List String :=
  (existing_jobs.map (fun j =>
    j.source_video.sha256_hash :: j.iterations.map (fun i => i.sha256_hash))).flatten

/-- `job_composer._create_jobs_from_source_files`: every regular file of
`input_dir` with case-insensitive suffix `.mp4` whose hash is unknown
becomes a new job, persisted at
`output_dir / (stem + JOB_FILE_SUFFIX + ".json")` - the source appends a
second `.json` to the already-suffixed name and writes directly into
`output_dir` rather than into the jobs directory. -/
def create_jobs_from_source_files (cfg : AppConfig) (existing_jobs : List JobData)
    (input_files : List SourceFile) : List NewJob :=
  input_files.filterMap (fun item =>
    if item.is_file = true ∧ py_str_lower item.suffix = ".mp4" then
      if item.sha256 ∈ known_hashes existing_jobs then none
      else some
        { source_name := item.stem ++ item.suffix
          journal_path := cfg.output_dir ++ "/" ++ (item.stem ++ JOB_FILE_SUFFIX ++ ".json")
          job_data := initialize_encoder_job cfg item }
    else none)

/-- The file-name filter of `job_composer._load_existing_jobs`: only
entries of `output_dir/firefly/data/jobs` ending in `_encoderdata.json`
are ever loaded as journals. -/
def loader_accepts_name (name : String) : Bool := str_ends_with name JOB_FILE_SUFFIX

/-- The journal path the spec prescribes:
`output_dir/firefly/data/jobs/<stem>_encoderdata.json`. -/
def spec_journal_path (cfg : AppConfig) (stem : String) : String :=
  cfg.output_dir ++ "/firefly/data/jobs/" ++ stem ++ JOB_FILE_SUFFIX

/-- C3 input file: `sample.mp4`, a regular file whose hash matches no
loaded journal. -/
def sampleC3 : SourceFile :=
  { stem := "sample", suffix := ".mp4", is_file := true
    sha256 := "hash-fresh", size_megabytes := 100 }

/-- C3 input file whose hash equals an iteration hash (`"hash-21"`) of
the loaded journal `jobC9`. -/
def knownC3 : SourceFile :=
  { stem := "known", suffix := ".mp4", is_file := true
    sha256 := "hash-21", size_megabytes := 10 }


/-! ## Driver execution (`app/main.py`) and journal loading -/

/-- `encoder.encode_job` on one job: run the search loop from pass 0.
The result is the final journal - or the escaping `EncodingError`, since
`encode_job` catches only the lock `Timeout` - together with every journal
persisted along the way. -/
def encode_job_run (cfg : AppConfig) (fuel : Nat) (job : JobData)
    (enc : Nat → EncodeOutcome) : Except Unit JobData × List JobData :=
  encode_job_loop cfg enc fuel 0 job

/-- Result of `main._execute_jobs`: the journals of the jobs the loop
completed, in order, and whether an uncaught `EncodingError` aborted the
loop (neither `_execute_jobs` nor `main` installs a handler for it). -/
structure ExecResult where
  processed : List JobData
  aborted : Bool
  deriving DecidableEq, Repr

/-- Shallow embedding of `main._execute_jobs`.  Per job: a negative stage
number goes to `_handle_job_error` (log; for safe errors a cleanup of the
output directory, verified separately as `perform_job_cleanup`; no journal
mutation) and the loop continues; a job in METADATA_EXTRACTED or
SEARCHING_CRF runs `encode_job`, whose escaping `EncodingError` aborts the
whole loop; after a non-aborted job, a non-negative stage is stamped
(5, COMPLETED) and persisted.  Wall-clock accounting is not modelled. -/
def execute_jobs (cfg : AppConfig) (fuel : Nat) (enc : Nat → Nat → EncodeOutcome) :
    List JobData → Nat → ExecResult
  | [], _ => { processed := [], aborted := false }
  | job :: rest, idx =>
    if job.encoding_stage.stage_number_from_1 < 0 then
      let r := execute_jobs cfg fuel enc rest (idx + 1)
      { r with processed := job :: r.processed }
    else
      if job.encoding_stage.stage_name = .METADATA_EXTRACTED
          ∨ job.encoding_stage.stage_name = .SEARCHING_CRF then
        match (encode_job_run cfg fuel job (enc idx)).1 with
        | .error _ => { processed := [], aborted := true }
        | .ok job1 =>
          let job2 :=
            if job1.encoding_stage.stage_number_from_1 ≥ 0 then
              { job1 with encoding_stage :=
                { job1.encoding_stage with
                  stage_number_from_1 := 5, stage_name := .COMPLETED } }
            else job1
          let r := execute_jobs cfg fuel enc rest (idx + 1)
          { r with processed := job2 :: r.processed }
      else
        let job2 :=
          if job.encoding_stage.stage_number_from_1 ≥ 0 then
            { job with encoding_stage :=
              { job.encoding_stage with
                stage_number_from_1 := 5, stage_name := .COMPLETED } }
          else job
        let r := execute_jobs cfg fuel enc rest (idx + 1)
        { r with processed := job2 :: r.processed }

/-- `job_composer._validate_job_data` for a loaded journal:
`source_hash_on_disk` is the hashing oracle's answer for
`input_dir / file_name` (`none` when the source file is missing); the
journal passes iff the hash matches the stored one. -/
def validate_job_data (source_hash_on_disk : Option String) (job : JobData) : Bool :=
  match source_hash_on_disk with
  | none => false
  | some h => if h = job.source_video.sha256_hash then true else false

/-- `_load_existing_jobs` keeps a parsed journal iff `_validate_job_data`
accepts it; a rejected journal file is deleted. -/
def load_keeps (source_hash_on_disk : Option String) (job : JobData) : Bool :=
  validate_job_data source_hash_on_disk job

/-- `main._validate_jobs`: keep the jobs the validator accepts; rejected
jobs are only logged and skipped - no journal file is deleted here. -/
def validate_jobs (envf : JobData → ValidateEnv) (jobs : List JobData) : List JobData :=
  jobs.filter (fun job => validate (envf job) job)

/-- C4: a job mid-search (SEARCHING_CRF, one recorded iteration at CRF 21,
VMAF 99) whose next encode will fail. -/
def jobC4a : JobData :=
  { schema_version := 3
    source_video :=
      { file_attributes := { file_name := "first.mp4", file_size_megabytes := some 100 }
        sha256_hash := "hash-a" }
    encoding_stage :=
      { stage_number_from_1 := 3, stage_name := .SEARCHING_CRF
        crf_range_min := 20, crf_range_max := 22, last_vmaf := some 99, last_crf := some 21 }
    iterations :=
      [{ file_attributes :=
          { file_name := "first_libx265_veryslow_crf_21.mp4", file_size_megabytes := none }
         sha256_hash := "hash-a21"
         encoder_settings :=
          { encoder := "libx265", preset := "veryslow", crf := 21, cpu_threads_to_use := 0 }
         execution_data := { source_to_encoded_vmaf_percent := 99 } }] }

/-- C4: a second pending job, queued after `jobC4a`. -/
def jobC4b : JobData :=
  { schema_version := 3
    source_video :=
      { file_attributes := { file_name := "second.mp4", file_size_megabytes := some 100 }
        sha256_hash := "hash-b" }
    encoding_stage :=
      { stage_number_from_1 := 3, stage_name := .SEARCHING_CRF
        crf_range_min := 20, crf_range_max := 22, last_vmaf := some 95, last_crf := some 21 }
    iterations :=
      [{ file_attributes :=
          { file_name := "second_libx265_veryslow_crf_21.mp4", file_size_megabytes := none }
         sha256_hash := "hash-b21"
         encoder_settings :=
          { encoder := "libx265", preset := "veryslow", crf := 21, cpu_threads_to_use := 0 }
         execution_data := { source_to_encoded_vmaf_percent := 95 } }] }

/-- C4: encode oracle family - the first job's encoder exits non-zero with
its output file absent (`EncodingError`), any other encode succeeds. -/
def encFamC4 : Nat → Nat → EncodeOutcome := fun idx _ =>
  if idx = 0 then .encodingError
  else .ok { vmaf := 50, out_name := "other.mp4", out_hash := "hash-other" }

/-- C10: a journal whose metadata extraction raised, persisted as
stage (-1, FAILED) with the untouched initial window [20, 22]. -/
def jobC10 : JobData :=
  { schema_version := 3
    source_video :=
      { file_attributes := { file_name := "dead.mp4", file_size_megabytes := some 100 }
        sha256_hash := "hash-dead" }
    encoding_stage :=
      { stage_number_from_1 := -1, stage_name := .FAILED
        crf_range_min := 20, crf_range_max := 22, last_vmaf := none, last_crf := none }
    iterations := [] }

/-! # Theorems -/

/-! ## C1: the search loop follows the claimed decision order -/

theorem is_crf_prediction_valid_false_iff (job : JobData) (c : Int) :
    is_crf_prediction_valid job c = false ↔
      (c < job.encoding_stage.crf_range_min ∨ c > job.encoding_stage.crf_range_max) := by
  unfold is_crf_prediction_valid
  split <;> simp_all

theorem is_encoding_efficient_false_iff (cfg : AppConfig) (job : JobData) (v : Rat) (c : Int) :
    is_encoding_efficient cfg job v c = false ↔
      ∃ lv lc, job.encoding_stage.last_vmaf = some lv
        ∧ job.encoding_stage.last_crf = some lc
        ∧ |c - lc| > 0
        ∧ pyAbsQ (v - lv) / ((|c - lc| : Int) : Rat) < cfg.efficiency_threshold := by
  unfold is_encoding_efficient
  cases hlv : job.encoding_stage.last_vmaf with
  | none => simp
  | some lv =>
    cases hlc : job.encoding_stage.last_crf with
    | none => simp
    | some lc =>
      constructor
      · intro h
        by_cases h1 : |c - lc| > 0
        · by_cases h2 : pyAbsQ (v - lv) / ((|c - lc| : Int) : Rat) < cfg.efficiency_threshold
          · exact ⟨lv, lc, rfl, rfl, h1, h2⟩
          · simp only [if_pos h1, if_neg h2] at h
            exact absurd h (by simp)
        · simp only [if_neg h1] at h
          exact absurd h (by simp)
      · rintro ⟨lv', lc', hlv', hlc', hpos, hlt⟩
        cases hlv'
        cases hlc'
        simp only [if_pos hpos, if_pos hlt]

theorem pyMinBy_foldl_mem (f : Iteration → Rat) (x : Iteration) (xs : List Iteration) :
    xs.foldl (fun best i => if f i < f best then i else best) x ∈ x :: xs := by
  induction xs generalizing x with
  | nil => simp
  | cons y ys ih =>
    simp only [List.foldl_cons]
    have h := ih (if f y < f x then y else x)
    rcases List.mem_cons.mp h with h' | h'
    · rw [h']
      split <;> simp
    · simp [List.mem_cons, h']

theorem pyMinBy_foldl_le (f : Iteration → Rat) (x : Iteration) (xs : List Iteration) :
    ∀ j ∈ x :: xs,
      f (xs.foldl (fun best i => if f i < f best then i else best) x) ≤ f j := by
  induction xs generalizing x with
  | nil => simp
  | cons y ys ih =>
    intro j hj
    simp only [List.foldl_cons]
    have hmin : f (if f y < f x then y else x) ≤ f x ∧ f (if f y < f x then y else x) ≤ f y := by
      constructor
      · split
        · exact le_of_lt (by assumption)
        · exact le_refl _
      · split
        · exact le_refl _
        · exact le_of_not_lt (by assumption)
    have ihx := ih (if f y < f x then y else x)
    rcases List.mem_cons.mp hj with h' | h'
    · subst h'
      exact le_trans (ihx _ (List.mem_cons_self _ _)) hmin.1
    · rcases List.mem_cons.mp h' with h'' | h''
      · subst h''
        exact le_trans (ihx _ (List.mem_cons_self _ _)) hmin.2
      · exact ihx _ (List.mem_cons_of_mem _ h'')

theorem pyMinBy_mem (f : Iteration → Rat) (l : List Iteration) (b : Iteration)
    (h : pyMinBy f l = some b) : b ∈ l := by
  cases l with
  | nil => simp [pyMinBy] at h
  | cons x xs =>
    simp only [pyMinBy, Option.some.injEq] at h
    rw [← h]
    exact pyMinBy_foldl_mem f x xs

theorem pyMinBy_le (f : Iteration → Rat) (l : List Iteration) (b : Iteration)
    (h : pyMinBy f l = some b) : ∀ j ∈ l, f b ≤ f j := by
  cases l with
  | nil => simp [pyMinBy] at h
  | cons x xs =>
    simp only [pyMinBy, Option.some.injEq] at h
    rw [← h]
    exact pyMinBy_foldl_le f x xs

theorem pyMinBy_append_singleton_isSome (f : Iteration → Rat) (l : List Iteration)
    (i : Iteration) : ∃ b, pyMinBy f (l ++ [i]) = some b := by
  cases l <;> simp [pyMinBy]

/-- C1: every pass of the CRF search loop of `encoder.encode_job` follows
the claimed decision order - broken bounds exit to UNREACHABLE_VMAF, then
an out-of-window prediction exits to UNREACHABLE_VMAF, then one iteration
is encoded at the predicted CRF and its VMAF decides between CRF_FOUND
with a collapsed window, STOPPED_VMAF_DELTA keeping the window and
reporting the iteration nearest `vmaf_min`, and a SEARCHING_CRF
window-narrowing step that persists and repeats. -/
theorem c1_search_pass_decision_order (cfg : AppConfig) (job : JobData) (r : EncodeResult) :
    passFollowsClaim cfg job r := by
  unfold passFollowsClaim
  refine ⟨?_, ?_, ?_, ?_, ?_⟩
  · intro hb
    simp only [encode_job_pass]
    rw [if_pos hb]
    exact ⟨_, rfl, rfl⟩
  · intro hb hc
    have hv : is_crf_prediction_valid job (predict_next_crf cfg job) = false :=
      (is_crf_prediction_valid_false_iff job _).mpr hc
    simp only [encode_job_pass]
    rw [if_neg hb, if_pos hv]
    exact ⟨_, rfl, rfl⟩
  · intro hb hc hband
    have hv : ¬ is_crf_prediction_valid job (predict_next_crf cfg job) = false := by
      rw [is_crf_prediction_valid_false_iff]
      exact hc
    simp only [encode_job_pass, mkIteration]
    rw [if_neg hb, if_neg hv]
    rw [if_pos hband]
    exact ⟨_, _, rfl, rfl, rfl, rfl, rfl⟩
  · intro hb hc hband hineff
    have hv : ¬ is_crf_prediction_valid job (predict_next_crf cfg job) = false := by
      rw [is_crf_prediction_valid_false_iff]
      exact hc
    have heff : is_encoding_efficient cfg job r.vmaf (predict_next_crf cfg job) = false :=
      (is_encoding_efficient_false_iff cfg job r.vmaf _).mpr hineff
    obtain ⟨b, hbEq⟩ := pyMinBy_append_singleton_isSome
      (fun i => pyAbsQ (i.execution_data.source_to_encoded_vmaf_percent - cfg.vmaf_min))
      job.iterations (mkIteration cfg (predict_next_crf cfg job) r)
    simp only [encode_job_pass, mkIteration] at hbEq ⊢
    rw [if_neg hb, if_neg hv, if_neg hband, if_pos heff, hbEq]
    refine ⟨_, _, rfl, rfl, rfl, rfl, rfl, rfl, rfl, rfl, ?_⟩
    refine ⟨b, ?_, ?_, rfl, rfl⟩
    · exact pyMinBy_mem _ _ _ hbEq
    · exact fun j hj => pyMinBy_le _ _ _ hbEq j hj
  · intro hb hc hband hineff
    have hv : ¬ is_crf_prediction_valid job (predict_next_crf cfg job) = false := by
      rw [is_crf_prediction_valid_false_iff]
      exact hc
    have heff : ¬ is_encoding_efficient cfg job r.vmaf (predict_next_crf cfg job) = false := by
      rw [is_encoding_efficient_false_iff]
      exact hineff
    simp only [encode_job_pass, mkIteration]
    rw [if_neg hb, if_neg hv, if_neg hband, if_neg heff]
    exact ⟨_, _, rfl, rfl, rfl, rfl, rfl⟩

/-! ## C2: the persisted SEARCHING_CRF window invariant -/

theorem pass_stop_stage_name (cfg : AppConfig) (job : JobData) (out : EncodeOutcome)
    (p : JobData) (h : encode_job_pass cfg job out = .stop p) :
    p.encoding_stage.stage_name = .UNREACHABLE_VMAF
    ∨ p.encoding_stage.stage_name = .CRF_FOUND
    ∨ p.encoding_stage.stage_name = .STOPPED_VMAF_DELTA := by
  cases out with
  | encodingError =>
    simp only [encode_job_pass] at h
    split at h
    · injection h with h2; subst h2; exact Or.inl rfl
    · split at h
      · injection h with h2; subst h2; exact Or.inl rfl
      · exact PassResult.noConfusion h
  | ok r =>
    simp only [encode_job_pass] at h
    split at h
    · injection h with h2; subst h2; exact Or.inl rfl
    · split at h
      · injection h with h2; subst h2; exact Or.inl rfl
      · split at h
        · injection h with h2; subst h2; exact Or.inr (Or.inl rfl)
        · split at h
          · injection h with h2; subst h2; exact Or.inr (Or.inr rfl)
          · exact PassResult.noConfusion h

theorem pass_next_window (cfg : AppConfig) (job : JobData) (out : EncodeOutcome)
    (p : JobData) (h : encode_job_pass cfg job out = .next p) :
    job.encoding_stage.crf_range_min ≤ job.encoding_stage.crf_range_max
    ∧ p.encoding_stage.stage_name = .SEARCHING_CRF
    ∧ ∃ c, job.encoding_stage.crf_range_min ≤ c ∧ c ≤ job.encoding_stage.crf_range_max
      ∧ ((p.encoding_stage.crf_range_min = c + 1
            ∧ p.encoding_stage.crf_range_max = job.encoding_stage.crf_range_max)
        ∨ (p.encoding_stage.crf_range_min = job.encoding_stage.crf_range_min
            ∧ p.encoding_stage.crf_range_max = c - 1)) := by
  cases out with
  | encodingError =>
    simp only [encode_job_pass] at h
    split at h
    · exact PassResult.noConfusion h
    · split at h
      · exact PassResult.noConfusion h
      · exact PassResult.noConfusion h
  | ok r =>
    simp only [encode_job_pass] at h
    split at h
    · exact PassResult.noConfusion h
    · rename_i hbounds
      split at h
      · exact PassResult.noConfusion h
      · rename_i hvalid
        rw [is_crf_prediction_valid_false_iff] at hvalid
        push_neg at hvalid
        split at h
        · exact PassResult.noConfusion h
        · split at h
          · exact PassResult.noConfusion h
          · by_cases hgt : (mkIteration cfg (predict_next_crf cfg job) r).execution_data.source_to_encoded_vmaf_percent > cfg.vmaf_max
            · rw [if_pos hgt, if_pos hgt] at h
              injection h with h2
              subst h2
              exact ⟨not_lt.mp hbounds, rfl, predict_next_crf cfg job,
                hvalid.1, hvalid.2, Or.inl ⟨rfl, rfl⟩⟩
            · rw [if_neg hgt, if_neg hgt] at h
              injection h with h2
              subst h2
              exact ⟨not_lt.mp hbounds, rfl, predict_next_crf cfg job,
                hvalid.1, hvalid.2, Or.inr ⟨rfl, rfl⟩⟩

/-- C2 (amended): along any run of the search loop from a state whose
window is well-formed for the configuration, every journal persisted with
stage SEARCHING_CRF satisfies `crf_range_min ≤ crf_range_max + 1` with
`crf_range_min ∈ [crf_min, crf_max + 1]` and
`crf_range_max ∈ [crf_min - 1, crf_max]`: a narrowing step may overshoot
the claimed window by exactly one on one side before the next pass turns
the job to UNREACHABLE_VMAF. -/
theorem c2_searching_window_amended (cfg : AppConfig) (enc : Nat → EncodeOutcome)
    (fuel k : Nat) (job : JobData) (hinv : windowInv cfg job.encoding_stage) :
    ∀ p ∈ (encode_job_loop cfg enc fuel k job).2,
      p.encoding_stage.stage_name = .SEARCHING_CRF →
        cfg.crf_min ≤ p.encoding_stage.crf_range_min
        ∧ p.encoding_stage.crf_range_min ≤ p.encoding_stage.crf_range_max + 1
        ∧ p.encoding_stage.crf_range_min ≤ cfg.crf_max + 1
        ∧ cfg.crf_min - 1 ≤ p.encoding_stage.crf_range_max
        ∧ p.encoding_stage.crf_range_max ≤ cfg.crf_max := by
  induction fuel generalizing k job with
  | zero =>
    intro p hp
    simp [encode_job_loop] at hp
  | succ n ih =>
    intro p hp hname
    simp only [encode_job_loop] at hp
    cases hpass : encode_job_pass cfg job (enc k) with
    | stop q =>
      rw [hpass] at hp
      simp only [List.mem_singleton] at hp
      subst hp
      rcases pass_stop_stage_name cfg job (enc k) p hpass with h | h | h <;>
        rw [hname] at h <;> exact absurd h (by decide)
    | raisedEncodingError =>
      rw [hpass] at hp
      simp at hp
    | next q =>
      rw [hpass] at hp
      simp only [List.mem_cons] at hp
      obtain ⟨hb, _, c, hc1, hc2, hcase⟩ := pass_next_window cfg job (enc k) q hpass
      obtain ⟨hmin, hmax, _⟩ := hinv
      rcases hp with rfl | hp
      · rcases hcase with ⟨e1, e2⟩ | ⟨e1, e2⟩ <;> rw [e1, e2] <;> omega
      · have hinv2 : windowInv cfg q.encoding_stage := by
          unfold windowInv
          rcases hcase with ⟨e1, e2⟩ | ⟨e1, e2⟩ <;> rw [e1, e2] <;> omega
        exact ih (k + 1) q hinv2 p hp hname

/-- C2 counterexample: with the validator-accepted configuration `cfgC2`
(CRF range [20, 22]) and the run driven by `encC2`, the loop persists a
SEARCHING_CRF journal whose window is [23, 22]: `crf_range_min` exceeds
both `crf_range_max` and `config.crf_max`, refuting the claimed invariant
for reachable persisted SEARCHING_CRF states. -/
theorem c2_searching_window_counterexample :
    ¬ (∀ p ∈ (encode_job_loop cfgC2 encC2 3 0 jobC2).2,
        p.encoding_stage.stage_name = .SEARCHING_CRF →
          p.encoding_stage.crf_range_min ≤ p.encoding_stage.crf_range_max
          ∧ cfgC2.crf_min ≤ p.encoding_stage.crf_range_min
          ∧ p.encoding_stage.crf_range_min ≤ cfgC2.crf_max
          ∧ cfgC2.crf_min ≤ p.encoding_stage.crf_range_max
          ∧ p.encoding_stage.crf_range_max ≤ cfgC2.crf_max) := by
  intro hall
  have ht : (encode_job_loop cfgC2 encC2 3 0 jobC2).2.map
      (fun p => (p.encoding_stage.stage_name,
        p.encoding_stage.crf_range_min, p.encoding_stage.crf_range_max))
      = [(.SEARCHING_CRF, 22, 22), (.SEARCHING_CRF, 23, 22), (.UNREACHABLE_VMAF, 23, 22)] := by
    norm_num [encode_job_loop, encode_job_pass, cfgC2, encC2, jobC2, predict_next_crf,
      is_crf_prediction_valid, is_encoding_efficient, mkIteration, pyMinBy, pyAbsQ, pyFloorDiv,
      show Int.fdiv 44 2 = 22 from by decide]
  have hmem : (EncodingStageNamesEnum.SEARCHING_CRF, (23 : Int), (22 : Int))
      ∈ (encode_job_loop cfgC2 encC2 3 0 jobC2).2.map
        (fun p => (p.encoding_stage.stage_name,
          p.encoding_stage.crf_range_min, p.encoding_stage.crf_range_max)) := by
    rw [ht]; simp
  obtain ⟨p, hp, hpeq⟩ := List.mem_map.mp hmem
  simp only [Prod.mk.injEq] at hpeq
  have hc := hall p hp hpeq.1
  rw [hpeq.2.1, hpeq.2.2] at hc
  exact absurd hc.1 (by decide)

theorem c2_searching_window_amended_witness :
    windowInv cfgC2 jobC2.encoding_stage
    ∧ (∀ p ∈ (encode_job_loop cfgC2 encC2 3 0 jobC2).2,
        p.encoding_stage.stage_name = .SEARCHING_CRF →
          cfgC2.crf_min ≤ p.encoding_stage.crf_range_min
          ∧ p.encoding_stage.crf_range_min ≤ p.encoding_stage.crf_range_max + 1
          ∧ p.encoding_stage.crf_range_min ≤ cfgC2.crf_max + 1
          ∧ cfgC2.crf_min - 1 ≤ p.encoding_stage.crf_range_max
          ∧ p.encoding_stage.crf_range_max ≤ cfgC2.crf_max) :=
  ⟨by unfold windowInv; decide,
    c2_searching_window_amended cfgC2 encC2 3 0 jobC2 (by unfold windowInv; decide)⟩

/-! ## C8: next-CRF prediction -/

theorem pyFloorDiv_midpoint_bounds (a b : Int) (h : a ≤ b) :
    a ≤ pyFloorDiv (a + b) 2 ∧ pyFloorDiv (a + b) 2 ≤ b := by
  unfold pyFloorDiv
  rw [Int.fdiv_eq_ediv _ (by norm_num)]
  omega

/-- C8: `_predict_next_crf` returns `config.initial_crf` when `last_crf`
is absent, the window-clamped half-even rounding of the linear-regression
solution for target VMAF `(vmaf_min + vmaf_max) / 2` when at least two
iterations exist (window midpoint when the fit is degenerate), the integer
midpoint of the window otherwise, and in every case a value inside
`[crf_range_min, crf_range_max]`.  The hypotheses pin down the states the
program reaches: a non-empty window, the full configured window whenever
`last_crf` is still absent, and a validator-accepted `initial_crf`. -/
theorem c8_predict_next_crf (cfg : AppConfig) (job : JobData)
    (hwin : job.encoding_stage.crf_range_min ≤ job.encoding_stage.crf_range_max)
    (hfresh : job.encoding_stage.last_crf = none →
      job.encoding_stage.crf_range_min = cfg.crf_min
        ∧ job.encoding_stage.crf_range_max = cfg.crf_max)
    (hinit : cfg.crf_min ≤ cfg.initial_crf ∧ cfg.initial_crf ≤ cfg.crf_max) :
    (job.encoding_stage.last_crf = none → predict_next_crf cfg job = cfg.initial_crf)
    ∧ (job.encoding_stage.last_crf ≠ none → job.iterations.length < 2 →
        predict_next_crf cfg job
          = pyFloorDiv (job.encoding_stage.crf_range_min + job.encoding_stage.crf_range_max) 2)
    ∧ (job.encoding_stage.last_crf ≠ none → 2 ≤ job.iterations.length →
        ((regressionDenom job.iterations ≠ 0 ∧ regressionSlope job.iterations ≠ 0) →
          predict_next_crf cfg job
            = max job.encoding_stage.crf_range_min (min job.encoding_stage.crf_range_max
                (pyRound (((cfg.vmaf_min + cfg.vmaf_max) / 2 - regressionIntercept job.iterations)
                  / regressionSlope job.iterations))))
        ∧ (¬ (regressionDenom job.iterations ≠ 0 ∧ regressionSlope job.iterations ≠ 0) →
          predict_next_crf cfg job
            = pyFloorDiv (job.encoding_stage.crf_range_min + job.encoding_stage.crf_range_max) 2))
    ∧ job.encoding_stage.crf_range_min ≤ predict_next_crf cfg job
    ∧ predict_next_crf cfg job ≤ job.encoding_stage.crf_range_max := by
  cases hlc : job.encoding_stage.last_crf with
  | none =>
    have hpred : predict_next_crf cfg job = cfg.initial_crf := by
      simp only [predict_next_crf, hlc]
    refine ⟨fun _ => hpred, fun hne => absurd rfl hne, fun hne => absurd rfl hne, ?_, ?_⟩
    · rw [hpred, (hfresh hlc).1]; exact hinit.1
    · rw [hpred, (hfresh hlc).2]; exact hinit.2
  | some c0 =>
    by_cases hlen : 2 ≤ job.iterations.length
    · by_cases hdeg : regressionDenom job.iterations ≠ 0 ∧ regressionSlope job.iterations ≠ 0
      · have hpred : predict_next_crf cfg job
            = max job.encoding_stage.crf_range_min (min job.encoding_stage.crf_range_max
                (pyRound (((cfg.vmaf_min + cfg.vmaf_max) / 2 - regressionIntercept job.iterations)
                  / regressionSlope job.iterations))) := by
          simp only [predict_next_crf, hlc]
          rw [if_pos hlen, if_pos hdeg]
        refine ⟨fun h => Option.noConfusion h, fun _ hlt => absurd hlen (not_le.mpr hlt),
          fun _ _ => ⟨fun _ => hpred, fun hcon => absurd hdeg hcon⟩, ?_, ?_⟩
        · rw [hpred]; omega
        · rw [hpred]; omega
      · have hpred : predict_next_crf cfg job
            = pyFloorDiv (job.encoding_stage.crf_range_min
                + job.encoding_stage.crf_range_max) 2 := by
          simp only [predict_next_crf, hlc]
          rw [if_pos hlen, if_neg hdeg]
        refine ⟨fun h => Option.noConfusion h, fun _ hlt => absurd hlen (not_le.mpr hlt),
          fun _ _ => ⟨fun hcon => absurd hcon hdeg, fun _ => hpred⟩, ?_, ?_⟩
        · rw [hpred]; exact (pyFloorDiv_midpoint_bounds _ _ hwin).1
        · rw [hpred]; exact (pyFloorDiv_midpoint_bounds _ _ hwin).2
    · have hpred : predict_next_crf cfg job
          = pyFloorDiv (job.encoding_stage.crf_range_min
              + job.encoding_stage.crf_range_max) 2 := by
        simp only [predict_next_crf, hlc]
        rw [if_neg hlen]
      refine ⟨fun h => Option.noConfusion h, fun _ _ => hpred,
        fun _ hge => absurd hge hlen, ?_, ?_⟩
      · rw [hpred]; exact (pyFloorDiv_midpoint_bounds _ _ hwin).1
      · rw [hpred]; exact (pyFloorDiv_midpoint_bounds _ _ hwin).2

theorem c8_predict_next_crf_witness :
    predict_next_crf cfgC2 jobC2 = cfgC2.initial_crf
    ∧ jobC2.encoding_stage.crf_range_min ≤ predict_next_crf cfgC2 jobC2
    ∧ predict_next_crf cfgC2 jobC2 ≤ jobC2.encoding_stage.crf_range_max :=
  ⟨(c8_predict_next_crf cfgC2 jobC2 (by decide) (fun _ => by decide) (by decide)).1 rfl,
    (c8_predict_next_crf cfgC2 jobC2 (by decide) (fun _ => by decide) (by decide)).2.2.2.1,
    (c8_predict_next_crf cfgC2 jobC2 (by decide) (fun _ => by decide) (by decide)).2.2.2.2⟩

/-! ## C7: validator acceptance for CRF_FOUND / COMPLETED -/

theorem foldl_last_match (p : Iteration → Prop) [DecidablePred p]
    (l : List Iteration) (acc : Option Iteration) :
    l.foldl (fun best i => if p i then some i else best) acc
      = (l.reverse.find? (fun i => decide (p i))).or acc := by
  induction l generalizing acc with
  | nil => simp
  | cons x xs ih =>
    simp only [List.foldl_cons, List.reverse_cons, ih, List.find?_append]
    by_cases hx : p x
    · simp [List.find?, hx, Option.or_assoc]
    · simp [List.find?, hx, Option.or_assoc]

theorem bestIterationScan_eq (job : JobData) :
    bestIterationScan job
      = if job.encoding_stage.crf_range_min = job.encoding_stage.crf_range_max
        then job.iterations.reverse.find? (fun i =>
          decide (some i.execution_data.source_to_encoded_vmaf_percent
            = job.encoding_stage.last_vmaf))
        else none := by
  unfold bestIterationScan
  by_cases hcol : job.encoding_stage.crf_range_min = job.encoding_stage.crf_range_max
  · rw [if_pos hcol]
    have : (fun (best : Option Iteration) (iteration : Iteration) =>
        if job.encoding_stage.crf_range_min = job.encoding_stage.crf_range_max
            ∧ some iteration.execution_data.source_to_encoded_vmaf_percent
                = job.encoding_stage.last_vmaf
          then some iteration else best)
        = (fun best iteration =>
          if some iteration.execution_data.source_to_encoded_vmaf_percent
              = job.encoding_stage.last_vmaf then some iteration else best) := by
      funext best iteration
      simp [hcol]
    rw [this, foldl_last_match]
    simp
  · rw [if_neg hcol]
    have : ∀ acc : Option Iteration, job.iterations.foldl
        (fun best iteration =>
          if job.encoding_stage.crf_range_min = job.encoding_stage.crf_range_max
              ∧ some iteration.execution_data.source_to_encoded_vmaf_percent
                  = job.encoding_stage.last_vmaf
            then some iteration else best) acc = acc := by
      induction job.iterations with
      | nil => intro acc; rfl
      | cons x xs ih =>
        intro acc
        simp only [List.foldl_cons]
        rw [if_neg (by intro hand; exact hcol hand.1)]
        exact ih acc
    exact this none

/-- C7 (amended): for a CRF_FOUND or COMPLETED job whose source and
journal files exist, the validator accepts iff the window is collapsed and
the most recently recorded iteration whose VMAF equals `last_vmaf` has its
output file still present in `output_dir`; the iteration's own CRF is
never compared with the window. -/
theorem c7_validate_amended (env : ValidateEnv) (job : JobData)
    (hsrc : env.source_exists = true) (hmeta : env.metadata_exists = true)
    (hstage : job.encoding_stage.stage_name = .CRF_FOUND
      ∨ job.encoding_stage.stage_name = .COMPLETED) :
    validate env job = true ↔
      (job.encoding_stage.crf_range_min = job.encoding_stage.crf_range_max
        ∧ ∃ b, job.iterations.reverse.find? (fun i =>
              decide (some i.execution_data.source_to_encoded_vmaf_percent
                = job.encoding_stage.last_vmaf)) = some b
          ∧ env.output_files.contains b.file_attributes.file_name = true) := by
  have hs3 : ¬ (job.encoding_stage.stage_name = .PREPARED
      ∨ job.encoding_stage.stage_name = .METADATA_EXTRACTED
      ∨ job.encoding_stage.stage_name = .SEARCHING_CRF) := by
    rcases hstage with h | h <;> rw [h] <;> decide
  have hs4 : ¬ (job.encoding_stage.stage_name = .STOPPED_VMAF_DELTA
      ∨ job.encoding_stage.stage_name = .UNREACHABLE_VMAF) := by
    rcases hstage with h | h <;> rw [h] <;> decide
  unfold validate
  rw [if_neg (by rw [hsrc]; simp), if_neg (by rw [hmeta]; simp), if_neg hs3, if_neg hs4,
    bestIterationScan_eq]
  by_cases hcol : job.encoding_stage.crf_range_min = job.encoding_stage.crf_range_max
  · rw [if_pos hcol]
    cases hfind : job.iterations.reverse.find? (fun i =>
        decide (some i.execution_data.source_to_encoded_vmaf_percent
          = job.encoding_stage.last_vmaf)) with
    | none => simp
    | some b => simp [hcol]
  · rw [if_neg hcol]
    simp [hcol]

/-- C7 counterexample: `validate` accepts `jobC7` although no iteration
was encoded at the collapsed window's CRF 26 - the claimed
characterization is refuted because the validator never inspects the
iteration's CRF. -/
theorem c7_validate_counterexample :
    validate envC7 jobC7 = true ∧ ¬ validateClaimSpec envC7 jobC7 := by
  constructor
  · decide
  · intro hspec
    obtain ⟨i, hi, hc1, _⟩ := hspec
    have heq := List.mem_singleton.mp hi
    rw [heq] at hc1
    exact absurd hc1 (by decide)

theorem c7_validate_amended_witness :
    envC7.source_exists = true ∧ envC7.metadata_exists = true
    ∧ jobC7.encoding_stage.stage_name = .CRF_FOUND
    ∧ (validate envC7 jobC7 = true ↔
      (jobC7.encoding_stage.crf_range_min = jobC7.encoding_stage.crf_range_max
        ∧ ∃ b, jobC7.iterations.reverse.find? (fun i =>
              decide (some i.execution_data.source_to_encoded_vmaf_percent
                = jobC7.encoding_stage.last_vmaf)) = some b
          ∧ envC7.output_files.contains b.file_attributes.file_name = true)) :=
  ⟨rfl, rfl, rfl, c7_validate_amended envC7 jobC7 rfl rfl (Or.inl rfl)⟩

/-! ## C5: byte size conversion in the v1 -> v3 migration -/

/-- C5 counterexample: migrating a 0.3 MB source stores
`int(0.3 * 1048576) = 314572`, while the claimed
`round(0.3 * 1048576) = 314573`; the migrator truncates instead of
rounding. -/
theorem c5_migration_rounding_counterexample :
    (v1_to_v3_migrate jobDictC5).source_file_attributes.file_size_bytes = some 314572
    ∧ pyRound ((3/10 : Rat) * (1024 * 1024)) = 314573
    ∧ (v1_to_v3_migrate jobDictC5).source_file_attributes.file_size_bytes
        ≠ some (pyRound ((3/10 : Rat) * (1024 * 1024))) := by
  have h1 : (v1_to_v3_migrate jobDictC5).source_file_attributes.file_size_bytes
      = some 314572 := by
    norm_num [v1_to_v3_migrate, migrate_file_attributes, jobDictC5, pyTrunc]
  have h2 : pyRound ((3/10 : Rat) * (1024 * 1024)) = 314573 := by
    norm_num [pyRound]
  refine ⟨h1, h2, ?_⟩
  rw [h1, h2]
  decide

/-- C5 (amended): the v1 -> v3 migration stamps version 3 and sets, on the
source `file_attributes` and on each iteration's, `file_size_bytes` equal
to the truncation toward zero of `file_size_megabytes * 1048576` (missing
megabyte values default to 0); the strict `FileAttributes` model has no
`file_size_bytes` field, so parsing and re-dumping the migrated object
drops the value. -/
theorem c5_migration_bytes_amended (d : JobDict) :
    (v1_to_v3_migrate d).schema_version = 3
    ∧ (v1_to_v3_migrate d).source_file_attributes.file_size_bytes
        = some (pyTrunc ((d.source_file_attributes.file_size_megabytes.getD 0) * (1024 * 1024)))
    ∧ ((v1_to_v3_migrate d).iteration_file_attributes.map (fun fa => fa.file_size_bytes))
        = d.iteration_file_attributes.map (fun fa =>
            some (pyTrunc ((fa.file_size_megabytes.getD 0) * (1024 * 1024))))
    ∧ (∀ fa m, model_validate_file_attributes fa = some m →
        (model_dump_file_attributes m).file_size_bytes = none) :=
  ⟨rfl, rfl, by simp [v1_to_v3_migrate, migrate_file_attributes],
    fun _ _ _ => rfl⟩

theorem c5_migration_bytes_amended_witness :
    (v1_to_v3_migrate jobDictC5).schema_version = 3
    ∧ (v1_to_v3_migrate jobDictC5).source_file_attributes.file_size_bytes
        = some (pyTrunc ((jobDictC5.source_file_attributes.file_size_megabytes.getD 0) * (1024 * 1024)))
    ∧ ((v1_to_v3_migrate jobDictC5).iteration_file_attributes.map (fun fa => fa.file_size_bytes))
        = jobDictC5.iteration_file_attributes.map (fun fa =>
            some (pyTrunc ((fa.file_size_megabytes.getD 0) * (1024 * 1024))))
    ∧ (∀ fa m, model_validate_file_attributes fa = some m →
        (model_dump_file_attributes m).file_size_bytes = none) :=
  c5_migration_bytes_amended jobDictC5

/-! ## C6: metadata lock reader/writer exclusion -/

/-- C6: for the journal `sample_encoderdata.json`, two EXCLUSIVE holders
do conflict and two SHARED holders coexist, but a SHARED holder (process
1, thread 1) and an EXCLUSIVE holder lock different files
(`...json.lock` versus `...json.read.1.1.lock`), so each acquires while
the other holds: the EXCLUSIVE lock does not exclude readers, refuting
single-writer/multiple-reader exclusion. -/
theorem c6_metadata_lock_writer_does_not_exclude_readers :
    (canAcquire [metadata_lock_path "sample_encoderdata.json" .EXCLUSIVE 1 1]
      (metadata_lock_path "sample_encoderdata.json" .EXCLUSIVE 2 7) = false)
    ∧ (canAcquire [metadata_lock_path "sample_encoderdata.json" .SHARED 1 1]
      (metadata_lock_path "sample_encoderdata.json" .SHARED 1 2) = true)
    ∧ (canAcquire [metadata_lock_path "sample_encoderdata.json" .SHARED 1 1]
      (metadata_lock_path "sample_encoderdata.json" .EXCLUSIVE 2 7) = true)
    ∧ (canAcquire [metadata_lock_path "sample_encoderdata.json" .EXCLUSIVE 2 7]
      (metadata_lock_path "sample_encoderdata.json" .SHARED 1 1) = true) := by
  decide

/-! ## C9: terminal cleanup -/

theorem remove_count_le (cfg : AppConfig) (its : List Iteration) :
    ∀ fs : List String, (remove_non_final_files cfg its fs).2 ≤ its.length := by
  induction its with
  | nil => intro fs; simp [remove_non_final_files]
  | cons i rest ih =>
    intro fs
    simp only [remove_non_final_files, List.length_cons]
    split
    · split
      · exact Nat.succ_le_succ (ih _)
      · exact le_trans (ih fs) (Nat.le_succ _)
    · exact le_trans (ih fs) (Nat.le_succ _)

theorem remove_count_eq_iff (cfg : AppConfig) (its : List Iteration) :
    ∀ fs : List String,
      (its.map fun i => i.file_attributes.file_name).Nodup → fs.Nodup →
      ((remove_non_final_files cfg its fs).2 = its.length ↔
        ∀ i ∈ its,
          (i.execution_data.source_to_encoded_vmaf_percent < cfg.vmaf_min
            ∨ i.execution_data.source_to_encoded_vmaf_percent > cfg.vmaf_max)
          ∧ i.file_attributes.file_name ∈ fs) := by
  induction its with
  | nil => intro fs _ _; simp [remove_non_final_files]
  | cons i rest ih =>
    intro fs h1 h2
    simp only [List.map_cons, List.nodup_cons] at h1
    obtain ⟨hnotin, h1r⟩ := h1
    simp only [remove_non_final_files, List.length_cons]
    split
    · rename_i hout
      split
      · rename_i hmem
        rw [Nat.add_right_cancel_iff, ih (fs.erase i.file_attributes.file_name) h1r (h2.erase _)]
        constructor
        · intro hall j hj
          rcases List.mem_cons.mp hj with rfl | hj2
          · exact ⟨hout, hmem⟩
          · exact ⟨(hall j hj2).1, List.mem_of_mem_erase (hall j hj2).2⟩
        · intro hall j hj2
          have hj := hall j (List.mem_cons_of_mem _ hj2)
          have hne : j.file_attributes.file_name ≠ i.file_attributes.file_name := by
            intro he
            exact hnotin (he ▸ List.mem_map_of_mem (fun k => k.file_attributes.file_name) hj2)
          exact ⟨hj.1, (h2.mem_erase_iff).mpr ⟨hne, hj.2⟩⟩
      · rename_i hmem
        constructor
        · intro hcnt
          have := remove_count_le cfg rest fs
          omega
        · intro hall
          exact absurd (hall i (List.mem_cons_self _ _)).2 hmem
    · rename_i hout
      constructor
      · intro hcnt
        have := remove_count_le cfg rest fs
        omega
      · intro hall
        exact absurd (hall i (List.mem_cons_self _ _)).1 hout

theorem remove_mem_iff (cfg : AppConfig) (its : List Iteration) :
    ∀ (fs : List String) (x : String),
      (its.map fun i => i.file_attributes.file_name).Nodup → fs.Nodup →
      (x ∈ (remove_non_final_files cfg its fs).1 ↔
        x ∈ fs ∧ ∀ i ∈ its,
          (i.execution_data.source_to_encoded_vmaf_percent < cfg.vmaf_min
            ∨ i.execution_data.source_to_encoded_vmaf_percent > cfg.vmaf_max) →
          i.file_attributes.file_name ≠ x) := by
  induction its with
  | nil => intro fs x _ _; simp [remove_non_final_files]
  | cons i rest ih =>
    intro fs x h1 h2
    simp only [List.map_cons, List.nodup_cons] at h1
    obtain ⟨hnotin, h1r⟩ := h1
    simp only [remove_non_final_files]
    split
    · rename_i hout
      split
      · rename_i hmem
        rw [ih (fs.erase i.file_attributes.file_name) x h1r (h2.erase _)]
        constructor
        · rintro ⟨hxe, hrest⟩
          have hne : x ≠ i.file_attributes.file_name := ((h2.mem_erase_iff).mp hxe).1
          refine ⟨List.mem_of_mem_erase hxe, fun j hj hjout => ?_⟩
          rcases List.mem_cons.mp hj with rfl | hj2
          · exact Ne.symm hne
          · exact hrest j hj2 hjout
        · rintro ⟨hxf, hall⟩
          have hne : i.file_attributes.file_name ≠ x :=
            hall i (List.mem_cons_self _ _) hout
          exact ⟨(h2.mem_erase_iff).mpr ⟨Ne.symm hne, hxf⟩,
            fun j hj hjout => hall j (List.mem_cons_of_mem _ hj) hjout⟩
      · rename_i hmem
        rw [ih fs x h1r h2]
        constructor
        · rintro ⟨hxf, hrest⟩
          refine ⟨hxf, fun j hj hjout => ?_⟩
          rcases List.mem_cons.mp hj with rfl | hj2
          · intro he
            exact hmem (he ▸ hxf)
          · exact hrest j hj2 hjout
        · rintro ⟨hxf, hall⟩
          exact ⟨hxf, fun j hj hjout => hall j (List.mem_cons_of_mem _ hj) hjout⟩
    · rename_i hout
      rw [ih fs x h1r h2]
      constructor
      · rintro ⟨hxf, hrest⟩
        refine ⟨hxf, fun j hj hjout => ?_⟩
        rcases List.mem_cons.mp hj with rfl | hj2
        · exact absurd hjout hout
        · exact hrest j hj2 hjout
      · rintro ⟨hxf, hall⟩
        exact ⟨hxf, fun j hj hjout => hall j (List.mem_cons_of_mem _ hj) hjout⟩

/-- C9 (amended): at terminal cleanup every out-of-band iteration output
is absent from the resulting `output_dir`, and the original source is
copied if and only if every iteration both lies outside
`[vmaf_min, vmaf_max]` and still had its output file present (so the
deletion count reaches the iteration count).  An out-of-band iteration
whose file is already missing suppresses the copy. -/
theorem c9_cleanup_amended (cfg : AppConfig) (job : JobData) (source_file_name : String)
    (fs : List String)
    (h1 : (job.iterations.map fun i => i.file_attributes.file_name).Nodup)
    (h2 : fs.Nodup)
    (h3 : source_file_name ∉ fs)
    (h4 : ∀ i ∈ job.iterations, i.file_attributes.file_name ≠ source_file_name) :
    (∀ i ∈ job.iterations,
      (i.execution_data.source_to_encoded_vmaf_percent < cfg.vmaf_min
        ∨ i.execution_data.source_to_encoded_vmaf_percent > cfg.vmaf_max) →
      i.file_attributes.file_name ∉ perform_job_cleanup cfg job source_file_name fs)
    ∧ (source_file_name ∈ perform_job_cleanup cfg job source_file_name fs ↔
        ∀ i ∈ job.iterations,
          (i.execution_data.source_to_encoded_vmaf_percent < cfg.vmaf_min
            ∨ i.execution_data.source_to_encoded_vmaf_percent > cfg.vmaf_max)
          ∧ i.file_attributes.file_name ∈ fs) := by
  have hle := remove_count_le cfg job.iterations fs
  have hcnt := remove_count_eq_iff cfg job.iterations fs h1 h2
  constructor
  · intro i hi hout
    simp only [perform_job_cleanup]
    split
    · intro hmemres
      rcases List.mem_append.mp hmemres with hin | hin
      · exact ((remove_mem_iff cfg job.iterations fs _ h1 h2).mp hin).2 i hi hout rfl
      · exact h4 i hi (List.mem_singleton.mp hin)
    · intro hmemres
      exact ((remove_mem_iff cfg job.iterations fs _ h1 h2).mp hmemres).2 i hi hout rfl
  · simp only [perform_job_cleanup]
    split
    · rename_i hge
      constructor
      · intro _
        exact hcnt.mp (le_antisymm hle hge)
      · intro _
        exact List.mem_append.mpr (Or.inr (List.mem_singleton.mpr rfl))
    · rename_i hge
      constructor
      · intro hmemres
        exact absurd ((remove_mem_iff cfg job.iterations fs _ h1 h2).mp hmemres).1 h3
      · intro hall
        exact absurd (le_of_eq (hcnt.mpr hall).symm) hge

/-- C9 counterexample: all of `jobC9`'s iterations lie outside the VMAF
band, yet because the single out-of-band output file is already absent
from `output_dir` the deletion count stays 0 < 1 and
`_perform_job_cleanup` does not copy the original source. -/
theorem c9_cleanup_counterexample :
    (∀ i ∈ jobC9.iterations,
      i.execution_data.source_to_encoded_vmaf_percent < cfgC2.vmaf_min
      ∨ i.execution_data.source_to_encoded_vmaf_percent > cfgC2.vmaf_max)
    ∧ "sample.mp4" ∉ perform_job_cleanup cfgC2 jobC9 "sample.mp4" [] := by
  decide

theorem c9_cleanup_amended_witness :
    (∀ i ∈ jobC9.iterations,
      (i.execution_data.source_to_encoded_vmaf_percent < cfgC2.vmaf_min
        ∨ i.execution_data.source_to_encoded_vmaf_percent > cfgC2.vmaf_max) →
      i.file_attributes.file_name ∉ perform_job_cleanup cfgC2 jobC9 "sample.mp4"
        ["sample_libx265_veryslow_crf_21.mp4"])
    ∧ ("sample.mp4" ∈ perform_job_cleanup cfgC2 jobC9 "sample.mp4"
          ["sample_libx265_veryslow_crf_21.mp4"] ↔
        ∀ i ∈ jobC9.iterations,
          (i.execution_data.source_to_encoded_vmaf_percent < cfgC2.vmaf_min
            ∨ i.execution_data.source_to_encoded_vmaf_percent > cfgC2.vmaf_max)
          ∧ i.file_attributes.file_name ∈ ["sample_libx265_veryslow_crf_21.mp4"]) :=
  c9_cleanup_amended cfgC2 jobC9 "sample.mp4" ["sample_libx265_veryslow_crf_21.mp4"]
    (by decide) (by decide) (by decide) (by decide)

/-! ## C3: fresh journal creation -/

/-- C3: composing over `input_dir = [sample.mp4, known.mp4]` with the
loaded journal `jobC9` creates exactly one job - `known.mp4` is skipped
because its hash equals an iteration hash - and the created journal has
stage PREPARED with window `[crf_min, crf_max]`; but it is persisted at
`out/sample_encoderdata.json.json` (doubled `.json`, directly in
`output_dir`), which differs from the specified
`out/firefly/data/jobs/sample_encoderdata.json` and which
`_load_existing_jobs` would never reload. -/
theorem c3_composer_journal_path_bug :
    create_jobs_from_source_files cfgC2 [jobC9] [sampleC3, knownC3]
      = [{ source_name := "sample.mp4"
           journal_path := "out/sample_encoderdata.json.json"
           job_data := initialize_encoder_job cfgC2 sampleC3 }]
    ∧ (initialize_encoder_job cfgC2 sampleC3).encoding_stage.stage_name = .PREPARED
    ∧ (initialize_encoder_job cfgC2 sampleC3).encoding_stage.stage_number_from_1 = 1
    ∧ (initialize_encoder_job cfgC2 sampleC3).encoding_stage.crf_range_min = cfgC2.crf_min
    ∧ (initialize_encoder_job cfgC2 sampleC3).encoding_stage.crf_range_max = cfgC2.crf_max
    ∧ "out/sample_encoderdata.json.json" ≠ spec_journal_path cfgC2 "sample"
    ∧ loader_accepts_name "sample_encoderdata.json.json" = false := by
  refine ⟨?_, rfl, rfl, rfl, rfl, by decide, by decide⟩
  decide

/-! ## C4: EncodingError handling in the driver -/

/-- C4 (amended): when `_encode_iteration` raises `EncodingError` on a
job's first pass, nothing handles it - the run aborts with no further job
processed - and the failing pass persists no journal, so the job's on-disk
stage is left as it was (SEARCHING_CRF) and the job can advance on a later
run. -/
theorem c4_encoding_error_aborts_run (cfg : AppConfig) (fuel : Nat)
    (enc : Nat → Nat → EncodeOutcome) (idx : Nat) (job : JobData) (rest : List JobData)
    (hnum : ¬ job.encoding_stage.stage_number_from_1 < 0)
    (hstage : job.encoding_stage.stage_name = .METADATA_EXTRACTED
      ∨ job.encoding_stage.stage_name = .SEARCHING_CRF)
    (hpass : encode_job_pass cfg job (enc idx 0) = .raisedEncodingError)
    (hfuel : 1 ≤ fuel) :
    (execute_jobs cfg fuel enc (job :: rest) idx).aborted = true
    ∧ (execute_jobs cfg fuel enc (job :: rest) idx).processed = []
    ∧ (encode_job_run cfg fuel job (enc idx)).2 = [] := by
  obtain ⟨m, rfl⟩ : ∃ m, fuel = m + 1 := ⟨fuel - 1, by omega⟩
  have hrun : encode_job_run cfg (m + 1) job (enc idx) = (.error (), []) := by
    simp [encode_job_run, encode_job_loop, hpass]
  refine ⟨?_, ?_, by rw [hrun]⟩ <;>
  · simp only [execute_jobs]
    rw [if_neg hnum, if_pos hstage, hrun]

/-- C4 counterexample: with `jobC4a`'s encode failing, `_execute_jobs`
aborts - contrary to the claim, the driver does not continue with the
remaining job `jobC4b`. -/
theorem c4_driver_continues_counterexample :
    (execute_jobs cfgC2 1 encFamC4 [jobC4a, jobC4b] 0).aborted = true
    ∧ (execute_jobs cfgC2 1 encFamC4 [jobC4a, jobC4b] 0).processed = [] := by
  decide

theorem c4_encoding_error_aborts_run_witness :
    (execute_jobs cfgC2 1 encFamC4 (jobC4a :: [jobC4b]) 0).aborted = true
    ∧ (execute_jobs cfgC2 1 encFamC4 (jobC4a :: [jobC4b]) 0).processed = []
    ∧ (encode_job_run cfgC2 1 jobC4a (encFamC4 0)).2 = [] :=
  c4_encoding_error_aborts_run cfgC2 1 encFamC4 0 jobC4a [jobC4b]
    (by decide) (by decide) (by decide) (by decide)

/-! ## C10: FAILED jobs are never reprocessed -/

/-- C10: a journal in stage FAILED (stage number -1, window still the
non-collapsed [crf_min, crf_max] left by `_extract_metadata`) is
permanently dead: the loader keeps its journal file while the source is
intact (so its hash stays registered), the validator rejects it under
every filesystem state, `_validate_jobs` always filters it out (deleting
nothing), the composer never creates a fresh job for a source carrying its
hash, and `_execute_jobs` passes it through the error branch - no
encoding, no journal write, the loop simply continues. -/
theorem c10_failed_job_never_reprocessed (cfg : AppConfig) (job : JobData)
    (hname : job.encoding_stage.stage_name = .FAILED)
    (hwin : job.encoding_stage.crf_range_min ≠ job.encoding_stage.crf_range_max)
    (hnum : job.encoding_stage.stage_number_from_1 < 0) :
    load_keeps (some job.source_video.sha256_hash) job = true
    ∧ (∀ env : ValidateEnv, validate env job = false)
    ∧ (∀ (envf : JobData → ValidateEnv) (jobs : List JobData), job ∉ validate_jobs envf jobs)
    ∧ (∀ (existing : List JobData) (files : List SourceFile), job ∈ existing →
        ∀ nj ∈ create_jobs_from_source_files cfg existing files,
          nj.job_data.source_video.sha256_hash ≠ job.source_video.sha256_hash)
    ∧ (∀ (fuel idx : Nat) (enc : Nat → Nat → EncodeOutcome) (rest : List JobData),
        execute_jobs cfg fuel enc (job :: rest) idx
          = { processed := job :: (execute_jobs cfg fuel enc rest (idx + 1)).processed
              aborted := (execute_jobs cfg fuel enc rest (idx + 1)).aborted }) := by
  have hval : ∀ env : ValidateEnv, validate env job = false := by
    intro env
    cases hse : env.source_exists <;> cases hme : env.metadata_exists <;>
      simp [validate, hse, hme, hname, bestIterationScan_eq, hwin]
  refine ⟨by simp [load_keeps, validate_job_data], hval, ?_, ?_, ?_⟩
  · intro envf jobs hmem
    have := (List.mem_filter.mp hmem).2
    rw [hval (envf job)] at this
    exact Bool.noConfusion this
  · intro existing files hex nj hnj
    have hknown : job.source_video.sha256_hash ∈ known_hashes existing := by
      unfold known_hashes
      exact List.mem_flatten.mpr ⟨_, List.mem_map_of_mem _ hex, List.mem_cons_self _ _⟩
    simp only [create_jobs_from_source_files, List.mem_filterMap] at hnj
    obtain ⟨item, _, heq⟩ := hnj
    split at heq
    · split at heq
      · exact Option.noConfusion heq
      · rename_i hfresh
        injection heq with heq2
        subst heq2
        intro hcon
        have hcon2 : item.sha256 = job.source_video.sha256_hash := hcon
        exact hfresh (by rw [hcon2]; exact hknown)
    · exact Option.noConfusion heq
  · intro fuel idx enc rest
    simp only [execute_jobs]
    rw [if_pos hnum]

theorem c10_failed_job_never_reprocessed_witness :
    load_keeps (some jobC10.source_video.sha256_hash) jobC10 = true
    ∧ (∀ env : ValidateEnv, validate env jobC10 = false)
    ∧ (∀ (envf : JobData → ValidateEnv) (jobs : List JobData),
        jobC10 ∉ validate_jobs envf jobs)
    ∧ (∀ (existing : List JobData) (files : List SourceFile), jobC10 ∈ existing →
        ∀ nj ∈ create_jobs_from_source_files cfgC2 existing files,
          nj.job_data.source_video.sha256_hash ≠ jobC10.source_video.sha256_hash)
    ∧ (∀ (fuel idx : Nat) (enc : Nat → Nat → EncodeOutcome) (rest : List JobData),
        execute_jobs cfgC2 fuel enc (jobC10 :: rest) idx
          = { processed := jobC10 :: (execute_jobs cfgC2 fuel enc rest (idx + 1)).processed
              aborted := (execute_jobs cfgC2 fuel enc rest (idx + 1)).aborted }) :=
  c10_failed_job_never_reprocessed cfgC2 jobC10 (by decide) (by decide) (by decide)
